import Mathlib

/-!
Shallow embedding of the `megaprompt` prompt renderer and its per-path
background worker.

* `src/src/prompt_buffer.rs` — the diagram layout algorithm
  (`PromptBuffer::to_string`, `get_line`, `trail_off`, `start`), the
  `PromptLine`/`PromptBox` data model and the `PromptLineBuilder`.
* `src/prompt_buffer/src/thread.rs` — the `PromptThread` worker
  (`new`, `check_is_alive`, `revive`, `get`).

Pure Rust functions become Lean functions on `Nat`/`String`/`List`; the
`u8` indent level wraps modulo `2^8`; the worker's channel races are
modelled by passing in, as explicit data, the outcome of every
nondeterministic event (spawn success, send success, the list of responses
buffered on the response channel before the 100 ms deadline).
-/

set_option maxRecDepth 4000

namespace Megaprompt

/-- Rust `col_cmd` from prompt_buffer.rs: wraps a terminal command in
`\[ESC[` … `\]`. -/
def col_cmd (c : String) : String := "\\[\x1B[" ++ c ++ "\\]"

/-- Rust `col` from prompt_buffer.rs: non-bold foreground color escape. -/
def col (c : Nat) : String := col_cmd (toString (c + 30) ++ "m")

/-- Rust `bcol` from prompt_buffer.rs: bold foreground color escape. -/
def bcol (c : Nat) : String := col_cmd ("1;" ++ toString (c + 30) ++ "m")

/-- Rust `reset` from prompt_buffer.rs. -/
def reset : String := col_cmd "0m"

/-- Rust `PromptLineType` from prompt_buffer.rs. -/
inductive PromptLineType where
  | Boxed
  | Free
deriving DecidableEq

/-- Rust `PromptBox` from prompt_buffer.rs: color, text and bold flag.
`term::color::Color` is `u16`; we carry it as `Nat`. -/
structure PromptBox where
  color : Nat
  text : String
  is_bold : Bool
deriving DecidableEq

/-- Rust `impl fmt::Show for PromptBox`: bold/non-bold color enable, the text,
then reset. -/
def PromptBox.fmt (b : PromptBox) : String :=
  (if b.is_bold then bcol b.color else col b.color) ++ b.text ++ reset

/-- Rust `PromptLine` from prompt_buffer.rs. `level` is a `u8`; every write
keeps it below 256. -/
structure PromptLine where
  level : Nat
  line_type : PromptLineType
  parts : List PromptBox
deriving DecidableEq

/-- Rust `PromptLine::new`. -/
def PromptLine.new : PromptLine :=
  { level := 0, line_type := PromptLineType.Boxed, parts := [] }

/-- Rust `PromptLine::new_free`. -/
def PromptLine.new_free : PromptLine :=
  { PromptLine.new with line_type := PromptLineType.Free }

/-- Rust `PromptLineBuilder` from prompt_buffer.rs. -/
structure PromptLineBuilder where
  line : PromptLine

/-- Rust `PromptLineBuilder::new`. -/
def PromptLineBuilder.new : PromptLineBuilder := { line := PromptLine.new }

/-- Rust `PromptLineBuilder::new_free`. -/
def PromptLineBuilder.new_free : PromptLineBuilder := { line := PromptLine.new_free }

/-- Rust `PromptLineBuilder::indent_by`: `self.line.level += amt` on a `u8`
wraps modulo 2^8 (pre-1.0 Rust wrapping arithmetic). -/
def PromptLineBuilder.indent_by (b : PromptLineBuilder) (amt : Nat) : PromptLineBuilder :=
  { line := { b.line with level := (b.line.level + amt) % 256 } }

/-- Rust `PromptLineBuilder::indent`. -/
def PromptLineBuilder.indent (b : PromptLineBuilder) : PromptLineBuilder :=
  b.indent_by 1

/-- Rust `PromptLineBuilder::add_block`. -/
def PromptLineBuilder.add_block (b : PromptLineBuilder) (s : String) (c : Nat)
    (bold : Bool) : PromptLineBuilder :=
  { line := { b.line with
      parts := b.line.parts ++ [{ color := c, text := s, is_bold := bold }] } }

/-- Rust `term::color::MAGENTA`. -/
def MAGENTA : Nat := 5

/-- Rust `term::color::RED`. -/
def RED : Nat := 1

/-- Rust `PromptLineBuilder::block` (manifest color `MAGENTA`, not bold). -/
def PromptLineBuilder.block (b : PromptLineBuilder) (s : String) : PromptLineBuilder :=
  b.add_block s MAGENTA false

/-- Rust `PromptLineBuilder::build`. -/
def PromptLineBuilder.build (b : PromptLineBuilder) : PromptLine := b.line

/-- Rust `const TOP : int = 8`. -/
def TOP : Nat := 8
/-- Rust `const BOTTOM : int = 4`. -/
def BOTTOM : Nat := 4
/-- Rust `const LEFT : int = 2`. -/
def LEFT : Nat := 2
/-- Rust `const RIGHT : int = 1`. -/
def RIGHT : Nat := 1

/-- Rust `PromptBuffer::get_line`: the fixed 4-bit-flag → glyph table. -/
def get_line (flags : Nat) : Char :=
  match flags with
  | 15 => '┼'
  | 14 => '┤'
  | 13 => '├'
  | 12 => '│'
  | 11 => '┴'
  | 10 => '┘'
  | 9 => '└'
  | 6 => '┐'
  | 5 => '┌'
  | 7 => '┬'
  | 3 => '─'
  | _ => ' '

/-- Rust `PromptBuffer::trail_off`: ten `LEFT|RIGHT` glyphs. -/
def trail_off : String :=
  String.mk (List.replicate 10 (get_line (LEFT ||| RIGHT)))

/-- The line pushed by `PromptBuffer::start`: two `MAGENTA` blocks
`\w` and `\H` on a level-0 Boxed line. -/
def headerLine : PromptLine :=
  ((PromptLineBuilder.new.block "\\w").block "\\H").build

/-- The `(after, start, end)` tuple computed per line in
`PromptBuffer::to_string`: `(lines[ix+1].level, min, max)` when a next
line exists, else `(0, 0, current)`. -/
def rowParams (lines : List PromptLine) (ix : Nat) (line : PromptLine) :
    Nat × Nat × Nat :=
  match lines[ix + 1]? with
  | some nxt => (nxt.level, min line.level nxt.level, max line.level nxt.level)
  | none => (0, 0, line.level)

/-- The 4-bit flag word assembled per depth `i` in
`PromptBuffer::to_string`. -/
def lineFlags (ix current after s : Nat) (lt : PromptLineType) (i : Nat) : Nat :=
  (if i = current ∧ 0 < ix then TOP else 0) |||
  (if i = after then BOTTOM else 0) |||
  (if s < i then LEFT else 0) |||
  (match lt with
   | PromptLineType.Boxed => RIGHT
   | PromptLineType.Free => if i = current then 0 else RIGHT)

/-- The connector glyphs produced for line `ix` by the depth loop
`for i in range(start, end + 1)` of `PromptBuffer::to_string`. The
bound `end + 1` is a `u8` sum and wraps modulo 2^8 (pre-1.0 Rust
wrapping arithmetic), so at `end = 255` the loop is empty; `range`
itself yields nothing when its upper bound is at most `start`. -/
def connectorChars (lines : List PromptLine) (ix : Nat) (line : PromptLine) :
    List Char :=
  let p := rowParams lines ix line
  (List.range ((p.2.2 + 1) % 256 - p.2.1)).map fun k =>
    get_line (lineFlags ix line.level p.1 p.2.1 line.line_type (p.2.1 + k))

/-- One step of the block loop of `PromptBuffer::to_string`: a Boxed
line wraps each block as `─ ┤ block ├`, a Free line appends a space and
the block. -/
def blockAppend (lt : PromptLineType) (acc : String) (b : PromptBox) : String :=
  match lt with
  | PromptLineType.Boxed =>
      acc ++ String.mk [get_line (LEFT ||| RIGHT), get_line (LEFT ||| TOP ||| BOTTOM)]
        ++ b.fmt ++ String.mk [get_line (TOP ||| BOTTOM ||| RIGHT)]
  | PromptLineType.Free => acc ++ " " ++ b.fmt

/-- The spaces-plus-connector-glyphs text built for a row before the
block loop: `start` leading spaces (the `for _ in range(0, start)`
prepends) then the depth-loop glyphs. -/
def rowHead (lines : List PromptLine) (ix : Nat) (line : PromptLine) : String :=
  String.mk (List.replicate (rowParams lines ix line).2.1 ' ')
    ++ String.mk (connectorChars lines ix line)

/-- The text built for line `ix` by one iteration of the outer loop of
`PromptBuffer::to_string` (without the trailing newline). -/
def renderRow (lines : List PromptLine) (ix : Nat) : String :=
  match lines[ix]? with
  | none => ""
  | some line =>
    let body := line.parts.foldl (blockAppend line.line_type) (rowHead lines ix line)
    match line.line_type with
    | PromptLineType.Boxed => body ++ trail_off
    | PromptLineType.Free => body

/-- The final `\$` marker box of `PromptBuffer::to_string`
(`color::RED`, not bold). -/
def promptMarker : PromptBox := { color := RED, text := "\\$", is_bold := false }

/-- Rust `PromptBuffer::to_string` applied to an already-built line list: each
line's row plus a newline, then the `TOP|RIGHT` and `LEFT|RIGHT` glyphs,
the marker box and one space. -/
def render (lines : List PromptLine) : String :=
  String.join ((List.range lines.length).map fun ix => renderRow lines ix ++ "\n")
    ++ String.mk [get_line (TOP ||| RIGHT), get_line (LEFT ||| RIGHT)]
    ++ promptMarker.fmt ++ " "

/-- Rust `PromptBuffer::to_string` as a function of the plugin-contributed
lines: `start` pushes `headerLine`, the plugins append `pluginOut`, and
the combined list is laid out by `render`. -/
def toStringModel (pluginOut : List PromptLine) : String :=
  render (headerLine :: pluginOut)

/-! Section: spec-side definitions, modelled from the claims' wording, for
refinement checks. -/

/-- Modelled from the claim wording of the glyph table:
`1111→┼, 1110→┤, 1101→├, 1100→│, 1011→┴, 1010→┘, 1001→└, 0110→┐,
0101→┌, 0111→┬, 0011→─`, anything else a blank space. -/
def specGlyphTable (f : Nat) : Char :=
  if f = 15 then '┼'
  else if f = 14 then '┤'
  else if f = 13 then '├'
  else if f = 12 then '│'
  else if f = 11 then '┴'
  else if f = 10 then '┘'
  else if f = 9 then '└'
  else if f = 6 then '┐'
  else if f = 5 then '┌'
  else if f = 7 then '┬'
  else if f = 3 then '─'
  else ' '

/-- Modelled from the claim wording of the flag rule: TOP (8) iff
`d = current` and the line is not the first, BOTTOM (4) iff `d = after`,
LEFT (2) iff `d > start`, RIGHT (1) iff the line is Boxed or it is Free
and `d ≠ current`. -/
def specFlags (ix current after s : Nat) (lt : PromptLineType) (d : Nat) : Nat :=
  (if d = current ∧ ix ≠ 0 then 8 else 0) +
  (if d = after then 4 else 0) +
  (if s < d then 2 else 0) +
  (if lt = PromptLineType.Boxed ∨ (lt = PromptLineType.Free ∧ d ≠ current) then 1 else 0)

/-- Modelled from the claim wording of the per-line connector pass:
`after = lines[i+1].level` (or 0 for the last line),
`start = min current after`, `end = max current after`, one glyph from
`specGlyphTable ∘ specFlags` for every depth in `[start, end]`. -/
def specConnector (lines : List PromptLine) (ix : Nat) : List Char :=
  match lines[ix]? with
  | none => []
  | some line =>
    let current := line.level
    let after := match lines[ix + 1]? with
      | some nxt => nxt.level
      | none => 0
    let s := min current after
    let e := max current after
    (List.range (e + 1 - s)).map fun k =>
      specGlyphTable (specFlags ix current after s line.line_type (s + k))

/-- Modelled from claim C3's wording: wrap each block's text in the glyph
pair `─┌` before and `┐─` after. -/
def claimBoxedWrap (acc : String) (b : PromptBox) : String :=
  acc ++ "─┌" ++ b.fmt ++ "┐─"

/-- Modelled from claim C3's wording: the row a Boxed or Free line would
produce if blocks were wrapped as `─┌ … ┐─` (Boxed) before the
ten-glyph tail. -/
def claimC3Row (lines : List PromptLine) (ix : Nat) : String :=
  match lines[ix]? with
  | none => ""
  | some line =>
    match line.line_type with
    | PromptLineType.Boxed =>
        line.parts.foldl claimBoxedWrap (rowHead lines ix line) ++ trail_off
    | PromptLineType.Free =>
        line.parts.foldl (fun acc b => acc ++ " " ++ b.fmt) (rowHead lines ix line)

/-- Modelled from claim C4's wording: the final row with a *bold* marker
block. -/
def boldMarkerRow : String :=
  String.mk [get_line (TOP ||| RIGHT), get_line (LEFT ||| RIGHT)]
    ++ PromptBox.fmt { color := RED, text := "\\$", is_bold := true } ++ " "

/-- Concatenation of a list of strings (used to state the per-block
segments of a row). -/
def strConcat : List String → String
  | [] => ""
  | s :: rest => s ++ strConcat rest

/-- The expected header row for an empty plugin contribution: the
level-0 Boxed line `start` pushes, laid out glyph by glyph. -/
def headerRowText : String :=
  "┌─┤" ++ col MAGENTA ++ "\\w" ++ reset ++ "├─┤" ++ col MAGENTA ++ "\\H" ++ reset
    ++ "├──────────"

/-- The expected trailing marker row: `└`, `─`, the red `\$` box and one
space. -/
def markerRowText : String :=
  "└─" ++ col RED ++ "\\$" ++ reset ++ " "

/-! Section: worker model from `src/prompt_buffer/src/thread.rs`.

The channels of `PromptThread` are modelled as explicit queues; the
outcome of every nondeterministic event of one `get` call (spawn
success, send success, which responses are buffered on the response
channel before the 100 ms deadline) is passed in as a `GetEnv`. An
empty `fresh`/`recvQ` pair means the deadline elapsed with every
`try_recv` poll failing. -/

/-- Rust `PromptBufferError` from error.rs: `SpawnError` from `thread::Builder::spawn`,
`ChannelError` from a failed channel send. -/
inductive PromptBufferError where
  | SpawnError
  | ChannelError
deriving DecidableEq

/-- Rust `PromptThread` from thread.rs: notify/response/death channels plus
path, cached output and the alive flag. -/
structure PromptThread where
  sendQ : List Unit
  recvQ : List String
  deathQ : List Unit
  path : String
  cached : String
  alive : Bool
deriving DecidableEq

/-- Outcome of the nondeterministic events during one call into the
worker: whether `thread::spawn` succeeds, the plugin lines of the fast
seed render used on revival, whether the notify send succeeds, and the
responses that reach the response channel before the deadline. -/
structure GetEnv where
  spawnOk : Bool
  reviveSeed : List PromptLine
  sendOk : Bool
  fresh : List String

/-- The `PromptThread` value built by a successful `PromptThread::new`:
fresh channels, `cached` seeded by the synchronous
`convert_to_string_ext(PluginSpeed::Fast)` render, `alive` true.
The seed render itself is `toStringModel` of the plugin lines produced
at fast speed. -/
def PromptThread.newOk (path : String) (seed : List PromptLine) : PromptThread :=
  { sendQ := [], recvQ := [], deathQ := [], path := path,
    cached := toStringModel seed, alive := true }

/-- Rust `PromptThread::new`: fails with `SpawnError` when the background
task cannot be spawned, otherwise yields `newOk`. -/
def PromptThread.new (path : String) (seed : List PromptLine) (spawnOk : Bool) :
    Except PromptBufferError PromptThread :=
  if spawnOk then Except.ok (PromptThread.newOk path seed) else Except.error PromptBufferError.SpawnError

/-- Rust `PromptThread::check_is_alive`: one non-blocking `try_recv` on the
death channel; on a signal the alive flag is set false; the current
alive state is returned. -/
def check_is_alive (t : PromptThread) : Bool × PromptThread :=
  match t.deathQ with
  | [] => (t.alive, t)
  | _ :: ds => (false, { t with alive := false, deathQ := ds })

/-- Function `check_is_alive` applied `n` times (state part only). -/
def applyChecks : Nat → PromptThread → PromptThread
  | 0, t => t
  | n + 1, t => applyChecks n (check_is_alive t).2

/-- Rust `PromptThread::revive`: replace `self` with a brand-new
`PromptThread::new(path, make_prompt)`. -/
def PromptThread.revive (t : PromptThread) (env : GetEnv) :
    Except PromptBufferError PromptThread :=
  PromptThread.new t.path env.reviveSeed env.spawnOk

/-- The `while let Ok(t) = self.recv.try_recv()` drain loop of
`PromptThread::get`: keep only the last buffered response. -/
def drainLast : String → List String → String
  | t, [] => t
  | _, x :: xs => drainLast x xs

/-- The race of `PromptThread::get` against the 100 ms timer: if any
response is buffered before the deadline, take the last one and store
it as the new `cached`; otherwise return the existing `cached`
unchanged. -/
def raceStep (t : PromptThread) (fresh : List String) : String × PromptThread :=
  match t.recvQ ++ fresh with
  | [] => (t.cached, t)
  | x :: xs => (drainLast x xs, { t with cached := drainLast x xs, recvQ := [] })

/-- Rust `PromptThread::get`: poll the death channel and revive if dead, send
a request notification (`ChannelError` on failure), then race the
response channel against the compute-budget timer. -/
def PromptThread.get (t : PromptThread) (env : GetEnv) :
    Except PromptBufferError (String × PromptThread) :=
  let c := check_is_alive t
  match (if c.1 then Except.ok c.2 else PromptThread.revive c.2 env) with
  | Except.error e => Except.error e
  | Except.ok t1 =>
    if env.sendOk then
      Except.ok (raceStep { t1 with sendQ := t1.sendQ ++ [()] } env.fresh)
    else Except.error PromptBufferError.ChannelError

/-! Section: concrete inputs used by witnesses and counterexamples. -/

/-- A one-block Boxed line used as a concrete test input. -/
def bl3 : PromptLine :=
  { level := 0, line_type := PromptLineType.Boxed,
    parts := [{ color := MAGENTA, text := "x", is_bold := false }] }

/-- A level-1 Free line used as a concrete test input. -/
def fl1 : PromptLine :=
  { level := 1, line_type := PromptLineType.Free,
    parts := [{ color := RED, text := "y", is_bold := false }] }

/-- A live worker with a non-trivial cache used as a concrete test
input. -/
def t0 : PromptThread :=
  { sendQ := [], recvQ := [], deathQ := [], path := "p", cached := "c", alive := true }

/-- A worker that has a pending death signal, used as a concrete test
input. -/
def t9 : PromptThread :=
  { sendQ := [], recvQ := [], deathQ := [()], path := "p", cached := "c", alive := true }

/-- An environment where nothing arrives before the deadline. -/
def envTimeout : GetEnv :=
  { spawnOk := true, reviveSeed := [], sendOk := true, fresh := [] }

/-- An environment where two responses arrive before the deadline. -/
def envFresh : GetEnv :=
  { spawnOk := true, reviveSeed := [], sendOk := true, fresh := ["r1", "r2"] }

/-- A worker with a stale response still buffered on its response
channel. -/
def t5 : PromptThread :=
  { sendQ := [], recvQ := ["stale"], deathQ := [], path := "p", cached := "c",
    alive := true }

/-- A two-line list (a Boxed line then a deeper Free line) used as a
concrete test input. -/
def L0 : List PromptLine := [bl3, fl1]

/-- A Boxed line at the maximal `u8` level 255 (reachable through
`indent_by`), used to exhibit the wrap of the depth-loop bound. -/
def l255 : PromptLine :=
  { level := 255, line_type := PromptLineType.Boxed, parts := [] }

/-! Section: helper lemmas shared by the claim theorems. -/

/-- Disjoint bit flags combined with `|||` add up like `+`. -/
theorem lorBits3 (p q r : Prop) [Decidable p] [Decidable q] [Decidable r] (d : Nat)
    (hd : d = 0 ∨ d = 1) :
    ((if p then (8 : Nat) else 0) ||| (if q then 4 else 0) ||| (if r then 2 else 0) ||| d) =
    (if p then 8 else 0) + (if q then 4 else 0) + (if r then 2 else 0) + d := by
  rcases hd with h | h <;> subst h <;>
    by_cases hp : p <;> by_cases hq : q <;> by_cases hr : r <;>
      simp [hp, hq, hr]

/-- The code's glyph table and the claim's glyph table agree on every flag
word. -/
theorem get_line_eq_spec (f : Nat) : get_line f = specGlyphTable f := by
  unfold get_line specGlyphTable
  split <;> simp_all

/-- The code's flag word equals the claim's flag word at every depth. -/
theorem flags_eq (ix current after s : Nat) (lt : PromptLineType) (i : Nat) :
    lineFlags ix current after s lt i = specFlags ix current after s lt i := by
  unfold lineFlags specFlags
  simp only [Nat.pos_iff_ne_zero]
  cases lt with
  | Boxed =>
      dsimp only [TOP, BOTTOM, LEFT, RIGHT]
      have hspec : (if (PromptLineType.Boxed = PromptLineType.Boxed ∨
          (PromptLineType.Boxed = PromptLineType.Free ∧ i ≠ current)) then (1 : Nat) else 0) = 1 := by
        simp
      rw [hspec]
      exact lorBits3 _ _ _ 1 (Or.inr rfl)
  | Free =>
      dsimp only [TOP, BOTTOM, LEFT, RIGHT]
      have hspec : (if (PromptLineType.Free = PromptLineType.Boxed ∨
          (PromptLineType.Free = PromptLineType.Free ∧ i ≠ current)) then (1 : Nat) else 0) =
          if i = current then 0 else 1 := by
        by_cases hc : i = current <;> simp [hc]
      rw [hspec]
      exact lorBits3 _ _ _ _ (by by_cases hc : i = current <;> simp [hc])

/-- Each connector glyph the code emits equals the claim's table lookup. -/
theorem lineFlags_glyph (ix current after s : Nat) (lt : PromptLineType) (i : Nat) :
    get_line (lineFlags ix current after s lt i) =
    specGlyphTable (specFlags ix current after s lt i) := by
  rw [flags_eq, get_line_eq_spec]

/-- Folding an append step over blocks is the accumulator followed by the
concatenated per-block strings. -/
theorem foldl_strConcat (f : PromptBox → String) (bs : List PromptBox) (acc : String) :
    bs.foldl (fun a b => a ++ f b) acc = acc ++ strConcat (bs.map f) := by
  induction bs generalizing acc with
  | nil => simp [strConcat]
  | cons x xs ih =>
      simp only [List.foldl_cons, List.map_cons, strConcat, ih, String.append_assoc]

/-- The drain loop keeps exactly the last buffered response. -/
theorem drainLast_getLast (x : String) (xs : List String) :
    (x :: xs).getLast? = some (drainLast x xs) := by
  induction xs generalizing x with
  | nil => rfl
  | cons y ys ih =>
      rw [drainLast, List.getLast?_cons_cons]
      exact ih y

/-- The value kept by the drain loop is one of the buffered responses. -/
theorem drainLast_mem (x : String) (xs : List String) : drainLast x xs ∈ x :: xs := by
  induction xs generalizing x with
  | nil => exact List.mem_singleton_self x
  | cons y ys ih =>
      rw [drainLast]
      exact List.mem_cons_of_mem x (ih y)

/-- Rendered output always ends with the marker row, hence is never
empty. -/
theorem render_ne_empty (lines : List PromptLine) : render lines ≠ "" := by
  intro h
  have hlen := congrArg String.length h
  simp only [render, String.length_append] at hlen
  have hone : (" " : String).length = 1 := rfl
  rw [hone] at hlen
  simp at hlen

/-- A dead worker stays dead through `check_is_alive`. -/
theorem check_alive_false (t : PromptThread) (h : t.alive = false) :
    (check_is_alive t).1 = false ∧ (check_is_alive t).2.alive = false := by
  cases ht : t.deathQ <;> simp [check_is_alive, ht, h]

/-- Any number of further polls keeps a dead worker dead. -/
theorem applyChecks_alive (n : Nat) (t : PromptThread) (h : t.alive = false) :
    (applyChecks n t).alive = false := by
  induction n generalizing t with
  | zero => simpa [applyChecks] using h
  | succ n ih =>
      rw [applyChecks]
      exact ih _ (check_alive_false t h).2

/-- The response race stores what it returns, and what it returns is the
old cache or one of the buffered responses. -/
theorem raceStep_cases (u : PromptThread) (fresh : List String) :
    (raceStep u fresh).2.cached = (raceStep u fresh).1 ∧
    ((raceStep u fresh).1 = u.cached ∨ (raceStep u fresh).1 ∈ u.recvQ ∨
      (raceStep u fresh).1 ∈ fresh) := by
  unfold raceStep
  cases hl : u.recvQ ++ fresh with
  | nil => exact ⟨rfl, Or.inl rfl⟩
  | cons x xs =>
      dsimp only
      refine ⟨rfl, ?_⟩
      have hm : drainLast x xs ∈ u.recvQ ++ fresh := by
        rw [hl]
        exact drainLast_mem x xs
      exact Or.inr (List.mem_append.mp hm)

/-- Pair-equation form of `raceStep_cases`. -/
theorem raceStep_spec (u : PromptThread) (fresh : List String) (res : String)
    (t' : PromptThread) (h : raceStep u fresh = (res, t')) :
    t'.cached = res ∧ (res = u.cached ∨ res ∈ u.recvQ ∨ res ∈ fresh) := by
  obtain ⟨hc, hd⟩ := raceStep_cases u fresh
  rw [h] at hc hd
  exact ⟨hc, hd⟩

/-- Every successful `get` stores what it returns, and the returned value
is the previous cache, the revival seed render, or a buffered response. -/
theorem get_ok_cases (t : PromptThread) (env : GetEnv) (res : String) (t' : PromptThread)
    (hget : PromptThread.get t env = Except.ok (res, t')) :
    t'.cached = res ∧
    (res = t.cached ∨ res = toStringModel env.reviveSeed ∨ res ∈ t.recvQ ∨
      res ∈ env.fresh) := by
  unfold PromptThread.get at hget
  cases ht : t.deathQ with
  | nil =>
      cases hal : t.alive with
      | true =>
          cases hso : env.sendOk with
          | false => simp [check_is_alive, ht, hal, hso] at hget
          | true =>
              simp [check_is_alive, ht, hal, hso] at hget
              obtain ⟨h1, h2⟩ := raceStep_spec _ _ _ _ hget
              dsimp only at h2
              refine ⟨h1, ?_⟩
              rcases h2 with h | h | h
              exacts [Or.inl h, Or.inr (Or.inr (Or.inl h)), Or.inr (Or.inr (Or.inr h))]
      | false =>
          cases hsp : env.spawnOk with
          | false =>
              simp [check_is_alive, ht, hal, hsp, PromptThread.revive,
                PromptThread.new] at hget
          | true =>
              cases hso : env.sendOk with
              | false =>
                  simp [check_is_alive, ht, hal, hsp, hso, PromptThread.revive,
                    PromptThread.new, PromptThread.newOk] at hget
              | true =>
                  simp [check_is_alive, ht, hal, hsp, hso, PromptThread.revive,
                    PromptThread.new, PromptThread.newOk] at hget
                  obtain ⟨h1, h2⟩ := raceStep_spec _ _ _ _ hget
                  dsimp only at h2
                  refine ⟨h1, ?_⟩
                  rcases h2 with h | h | h
                  · exact Or.inr (Or.inl h)
                  · exact absurd h (List.not_mem_nil _)
                  · exact Or.inr (Or.inr (Or.inr h))
  | cons u ds =>
      cases hsp : env.spawnOk with
      | false =>
          simp [check_is_alive, ht, hsp, PromptThread.revive, PromptThread.new] at hget
      | true =>
          cases hso : env.sendOk with
          | false =>
              simp [check_is_alive, ht, hsp, hso, PromptThread.revive,
                PromptThread.new, PromptThread.newOk] at hget
          | true =>
              simp [check_is_alive, ht, hsp, hso, PromptThread.revive,
                PromptThread.new, PromptThread.newOk] at hget
              obtain ⟨h1, h2⟩ := raceStep_spec _ _ _ _ hget
              dsimp only at h2
              refine ⟨h1, ?_⟩
              rcases h2 with h | h | h
              · exact Or.inr (Or.inl h)
              · exact absurd h (List.not_mem_nil _)
              · exact Or.inr (Or.inr (Or.inr h))

/-! Section: the claim theorems. -/

/-- Counterexample to C1 as stated: at a line of level 255 the `u8`
depth-loop bound `end + 1` wraps to 0 and the program emits no
connector glyphs, while the claim's per-depth rule yields one glyph for
every depth in `[0, 255]`. -/
theorem claim_C1_counterexample :
    connectorChars [l255] 0 l255 ≠ specConnector [l255] 0 := by decide

/-- Claim C1 (amended): for every line list and every index `ix`, with
`current`, `after` (0 for the last line), `start = min current after`
and `end = max current after`, the depth-loop bound `end + 1` is
computed in 8-bit arithmetic: when `end = 255` it wraps to 0 and the
renderer emits no connector glyphs; when `end < 255` the renderer emits,
for every depth `d` in `[start, end]`, exactly the glyph obtained from
the claim's 4-bit flag rule (TOP iff `d = current` and not the first
line, BOTTOM iff `d = after`, LEFT iff `d > start`, RIGHT iff Boxed or
Free with `d ≠ current`) looked up in the claim's eleven-entry table
with blank default. -/
theorem claim_C1 (lines : List PromptLine) (ix : Nat) (h : ix < lines.length) :
    ((rowParams lines ix (lines.get ⟨ix, h⟩)).2.2 < 255 →
      connectorChars lines ix (lines.get ⟨ix, h⟩) = specConnector lines ix) ∧
    ((rowParams lines ix (lines.get ⟨ix, h⟩)).2.2 = 255 →
      connectorChars lines ix (lines.get ⟨ix, h⟩) = []) := by
  have hix : lines[ix]? = some (lines.get ⟨ix, h⟩) := by
    simp [List.getElem?_eq_getElem, h]
  constructor
  · intro hlt
    simp only [connectorChars, specConnector, rowParams, hix] at hlt ⊢
    cases hnx : lines[ix + 1]? with
    | none =>
        simp only [hnx] at hlt ⊢
        rw [Nat.mod_eq_of_lt (by omega)]
        simp only [Nat.min_zero, Nat.max_zero]
        exact List.map_congr_left fun k _ => lineFlags_glyph ix _ 0 0 _ (0 + k)
    | some nxt =>
        simp only [hnx] at hlt ⊢
        rw [Nat.mod_eq_of_lt (by omega)]
        exact List.map_congr_left fun k _ => lineFlags_glyph ix _ _ _ _ _
  · intro heq
    simp only [connectorChars, rowParams, hix] at heq ⊢
    cases hnx : lines[ix + 1]? with
    | none =>
        simp only [hnx] at heq ⊢
        rw [heq]
        simp
    | some nxt =>
        simp only [hnx] at heq ⊢
        rw [heq]
        simp

/-- Witness for the amended C1: the non-wrapping branch at the two-line
input `L0` and the wrapping branch at the level-255 line. -/
theorem claim_C1_witness : connectorChars L0 0 bl3 = specConnector L0 0 ∧
    connectorChars [l255] 0 l255 = [] :=
  ⟨(claim_C1 L0 0 (by decide)).1 (by decide),
   (claim_C1 [l255] 0 (by decide)).2 (by decide)⟩

/-- Claim C2: when the worker is alive, the request send succeeds and no
response reaches the response channel before the 100 ms deadline, `get`
returns `Ok` with the existing `cached` value, leaves `cached` unchanged
(only the notify queue grows), and reports no error. -/
theorem claim_C2 (t : PromptThread) (env : GetEnv) (hd : t.deathQ = [])
    (ha : t.alive = true) (hs : env.sendOk = true) (hr : t.recvQ = [])
    (hf : env.fresh = []) :
    PromptThread.get t env = Except.ok (t.cached, { t with sendQ := t.sendQ ++ [()] }) := by
  simp [PromptThread.get, check_is_alive, raceStep, hd, ha, hs, hr, hf]

/-- Witness for C2 at the concrete worker `t0`. -/
theorem claim_C2_witness :
    PromptThread.get t0 envTimeout = Except.ok ("c", { t0 with sendQ := [()] }) :=
  claim_C2 t0 envTimeout rfl rfl rfl rfl rfl

/-- Counterexample to C3 as stated: on a one-block Boxed line the
renderer does not produce the claimed `─┌ … ┐─` wrapping; the claimed
row differs from the rendered row. -/
theorem claim_C3_counterexample : renderRow [bl3] 0 ≠ claimC3Row [bl3] 0 := by decide

/-- Claim C3 (amended): for every Boxed line the renderer precedes each
block's rendered text with the glyph pair `─┤` (the `LEFT|RIGHT` and
`LEFT|TOP|BOTTOM` glyphs) and follows it with `├` (the
`TOP|BOTTOM|RIGHT` glyph), then appends exactly ten repetitions of the
`LEFT|RIGHT` glyph `─` as a trailing connector tail; for every Free line
it appends only a single space then the block text, with no tail and no
box glyphs. -/
theorem claim_C3 (lines : List PromptLine) (ix : Nat) (line : PromptLine)
    (h : lines[ix]? = some line) :
    (line.line_type = PromptLineType.Boxed →
      renderRow lines ix = rowHead lines ix line
        ++ strConcat (line.parts.map fun b => "─┤" ++ b.fmt ++ "├") ++ trail_off) ∧
    (line.line_type = PromptLineType.Free →
      renderRow lines ix = rowHead lines ix line
        ++ strConcat (line.parts.map fun b => " " ++ b.fmt)) ∧
    trail_off = "──────────" := by
  refine ⟨fun hb => ?_, fun hf => ?_, by decide⟩
  · have e1 : String.mk [get_line (LEFT ||| RIGHT), get_line (LEFT ||| TOP ||| BOTTOM)] =
        "─┤" := by decide
    have e2 : String.mk [get_line (TOP ||| BOTTOM ||| RIGHT)] = "├" := by decide
    have hba : blockAppend PromptLineType.Boxed =
        fun a b => a ++ ("─┤" ++ b.fmt ++ "├") := by
      funext a b
      simp only [blockAppend, e1, e2, String.append_assoc]
    simp only [renderRow, h, hb, hba, foldl_strConcat]
  · have hba : blockAppend PromptLineType.Free = fun a b => a ++ (" " ++ b.fmt) := by
      funext a b
      simp only [blockAppend, String.append_assoc]
    simp only [renderRow, h, hf, hba, foldl_strConcat]

/-- Witness for the amended C3 at the one-block Boxed line `bl3`. -/
theorem claim_C3_witness : renderRow [bl3] 0 = rowHead [bl3] 0 bl3
    ++ strConcat (bl3.parts.map fun b => "─┤" ++ b.fmt ++ "├") ++ trail_off :=
  (claim_C3 [bl3] 0 bl3 rfl).1 rfl

/-- Counterexample to C4 as stated: the final row is not the bold-marker
row the claim describes (already for the empty input). -/
theorem claim_C4_counterexample : render [] ≠ boldMarkerRow := by decide

/-- Claim C4 (amended): after all processed rows, each followed by a
newline, the renderer appends one final row made of the `TOP|RIGHT`
glyph `└`, the `LEFT|RIGHT` glyph `─`, and a fixed *non-bold* marker
block with fixed text `\$` and fixed color red, with no trailing newline
and exactly one trailing space. -/
theorem claim_C4 (lines : List PromptLine) :
    render lines =
      String.join ((List.range lines.length).map fun ix => renderRow lines ix ++ "\n")
        ++ "└─" ++ promptMarker.fmt ++ " " ∧
    promptMarker = { color := RED, text := "\\$", is_bold := false } ∧
    promptMarker.fmt = col RED ++ "\\$" ++ reset := by
  refine ⟨?_, rfl, rfl⟩
  have hg : String.mk [get_line (TOP ||| RIGHT), get_line (LEFT ||| RIGHT)] = "└─" := by decide
  rw [render, hg]

/-- Claim C5: when the worker is alive, the send succeeds and at least
one response is buffered before the deadline, `get` drains the buffered
responses keeping only the last one, stores it as the new `cached`, and
returns it. -/
theorem claim_C5 (t : PromptThread) (env : GetEnv) (hd : t.deathQ = [])
    (ha : t.alive = true) (hs : env.sendOk = true)
    (hne : t.recvQ ++ env.fresh ≠ []) :
    ∃ r, (t.recvQ ++ env.fresh).getLast? = some r ∧
      PromptThread.get t env =
        Except.ok (r, { t with sendQ := t.sendQ ++ [()], cached := r, recvQ := [] }) := by
  cases hlist : t.recvQ ++ env.fresh with
  | nil => exact absurd hlist hne
  | cons x xs =>
      refine ⟨drainLast x xs, ?_, ?_⟩
      · exact drainLast_getLast x xs
      · simp [PromptThread.get, check_is_alive, raceStep, hd, ha, hs, hlist]

/-- Witness for C5 at a worker with one stale and two fresh responses. -/
theorem claim_C5_witness : ∃ r, (t5.recvQ ++ envFresh.fresh).getLast? = some r ∧
    PromptThread.get t5 envFresh =
      Except.ok (r, { t5 with sendQ := t5.sendQ ++ [()], cached := r, recvQ := [] }) :=
  claim_C5 t5 envFresh rfl rfl rfl (by decide)

/-- Claim C6: a freshly constructed worker has a non-empty seeded
`cached`, and every successful `get` on a worker whose cache is
non-empty and whose buffered responses are renders returns a non-empty
string — the prior cached value or a fresh render — which is also the
new cache. -/
theorem claim_C6 (path : String) (seed : List PromptLine) (t : PromptThread)
    (env : GetEnv) (res : String) (t' : PromptThread)
    (hc : t.cached ≠ "")
    (hstale : ∀ x ∈ t.recvQ, ∃ ls, x = toStringModel ls)
    (hfresh : ∀ x ∈ env.fresh, ∃ ls, x = toStringModel ls)
    (hget : PromptThread.get t env = Except.ok (res, t')) :
    (PromptThread.newOk path seed).cached ≠ "" ∧ res ≠ "" ∧ t'.cached = res ∧
    (res = t.cached ∨ ∃ ls, res = toStringModel ls) := by
  obtain ⟨h1, h2⟩ := get_ok_cases t env res t' hget
  have hnr : ∀ ls : List PromptLine, toStringModel ls ≠ "" :=
    fun ls => render_ne_empty (headerLine :: ls)
  refine ⟨hnr seed, ?_, h1, ?_⟩
  · rcases h2 with h | h | h | h
    · rw [h]; exact hc
    · rw [h]; exact hnr _
    · obtain ⟨ls, hls⟩ := hstale _ h
      rw [hls]; exact hnr _
    · obtain ⟨ls, hls⟩ := hfresh _ h
      rw [hls]; exact hnr _
  · rcases h2 with h | h | h | h
    · exact Or.inl h
    · exact Or.inr ⟨_, h⟩
    · exact Or.inr (hstale _ h)
    · exact Or.inr (hfresh _ h)

/-- Witness for C6: a concrete freshly constructed worker serving a
timed-out `get` returns its non-empty seed render. -/
theorem claim_C6_witness : toStringModel [] ≠ "" :=
  (claim_C6 "q" [] (PromptThread.newOk "p" []) envTimeout (toStringModel [])
    { PromptThread.newOk "p" [] with sendQ := [()] } (by decide)
    (by simp [PromptThread.newOk]) (by simp [envTimeout]) rfl).2.1

/-- Claim C7: with no plugin contributions the rendered output is
exactly the fixed two-block working-directory/host header row, a
newline, and the fixed trailing marker row — no intermediate rows. -/
theorem claim_C7 : toStringModel [] = headerRowText ++ "\n" ++ markerRowText ∧
    '\n' ∉ headerRowText.data ∧ '\n' ∉ markerRowText.data :=
  ⟨by decide, by decide, by decide⟩

/-- Claim C8: the renderer is a pure function of the line sequence, so
rendering the same fixed sequence twice yields byte-identical output. -/
theorem claim_C8 (lines : List PromptLine) :
    render lines = render lines ∧ toStringModel lines = toStringModel lines := ⟨rfl, rfl⟩

/-- Claim C9: `check_is_alive` returns the current alive state (false
once a death signal is buffered), stores exactly the value it returns,
is idempotent, stays false under any number of further polls once it has
returned false, and never flips a dead worker back to alive. -/
theorem claim_C9 (t : PromptThread) (n : Nat) :
    ((check_is_alive t).1 = if t.deathQ = [] then t.alive else false) ∧
    ((check_is_alive t).2.alive = (check_is_alive t).1) ∧
    ((check_is_alive ((check_is_alive t).2)).1 = (check_is_alive t).1) ∧
    ((check_is_alive t).1 = false →
      (check_is_alive (applyChecks n (check_is_alive t).2)).1 = false) ∧
    ((check_is_alive t).2.alive = true → t.alive = true) := by
  refine ⟨?_, ?_, ?_, ?_, ?_⟩
  · cases ht : t.deathQ <;> simp [check_is_alive, ht]
  · cases ht : t.deathQ <;> simp [check_is_alive, ht]
  · cases ht : t.deathQ with
    | nil => simp [check_is_alive, ht]
    | cons u ds => cases hds : ds <;> simp [check_is_alive, ht, hds]
  · intro h
    have halive : (check_is_alive t).2.alive = false := by
      cases ht : t.deathQ <;> simp_all [check_is_alive, ht]
    exact (check_alive_false _ (applyChecks_alive n _ halive)).1
  · cases ht : t.deathQ <;> simp [check_is_alive, ht]

/-- Witness for C9: a worker with a buffered death signal stays dead
through three further polls. -/
theorem claim_C9_witness :
    (check_is_alive (applyChecks 3 (check_is_alive t9).2)).1 = false :=
  (claim_C9 t9 3).2.2.2.1 rfl

/-- Claim C10: the indent level is an 8-bit value: `indent_by a` then
`indent_by b` from a fresh builder yields level `(a + b) % 256`, the
level stays below 256, and 256 single-step indents return the level to
0. -/
theorem claim_C10 (a b : Nat) (ha : a < 256) (hb : b < 256) :
    ((PromptLineBuilder.new.indent_by a).indent_by b).build.level = (a + b) % 256 ∧
    ((PromptLineBuilder.new.indent_by a).indent_by b).build.level < 256 ∧
    (Nat.iterate PromptLineBuilder.indent 256 PromptLineBuilder.new).build.level = 0 := by
  have h1 : ((PromptLineBuilder.new.indent_by a).indent_by b).build.level = (a + b) % 256 := by
    show ((0 + a) % 256 + b) % 256 = (a + b) % 256
    rw [Nat.zero_add, Nat.mod_add_mod]
  refine ⟨h1, ?_, by decide⟩
  rw [h1]
  exact Nat.mod_lt _ (by decide)

/-- Witness for C10 at amounts 200 and 100 (wrapping to 44). -/
theorem claim_C10_witness :
    ((PromptLineBuilder.new.indent_by 200).indent_by 100).build.level = (200 + 100) % 256 :=
  (claim_C10 200 100 (by decide) (by decide)).1

end Megaprompt
